import Mathlib

/-!
Shallow embedding of the lead-gen-scraper application
(`app/google_places.py`, `app/scraper.py`, `app/sheets_handler.py`,
`app/main.py`) and proofs about its claims.

Modelling conventions:
* Python numbers (ints and floats) are modelled as `ℚ`/`ℤ`; the float
  literal `0.032` is modelled by the rational `32/1000`.
* Python `int(x)` (truncation towards zero) is `pytrunc`.
* Transcendental parts (haversine's `sin`/`cos`/`atan2`, the
  latitude-dependent longitude scale) are abstracted as function
  parameters; the claims proved here do not depend on their values.
* Network and spreadsheet calls are abstracted as oracles/environments;
  a Python function returning `None` on failure becomes `Option`, and
  an uncaught Python exception becomes `Except.error`.
* Python dictionaries holding leads keyed by `place_id` (insertion
  ordered) are modelled as association lists.
-/

namespace LeadGen

/-- Python `int(q)`: truncation of a rational towards zero. -/
def pytrunc (q : ℚ) : ℤ :=
  if 0 ≤ q then ⌊q⌋ else -⌊-q⌋

/-- Python truthiness of an optional number: `None` and `0` are falsy. -/
def pyFalsy (o : Option ℚ) : Bool :=
  match o with
  | none => true
  | some q => q = 0

/-! ## `google_places.py`: data model -/

/-- One entry of a place's `addressComponents` list.  A key absent from
the component dictionary is modelled by `""` (the code only ever reads
these keys with `.get(key, '')`). -/
structure AddressComponent where
  types : List String
  longText : String
  shortText : String
deriving DecidableEq, Repr

/-- A raw place record as returned by the Places API.  `id` is read with
`place.get('id')` (no default), hence `Option`; the latitude/longitude
are read through `.get('location', {}).get(...)`, hence `Option ℚ`;
the remaining string fields are read with a `''` default. -/
structure RawPlace where
  id : Option String
  latitude : Option ℚ
  longitude : Option ℚ
  displayName : String
  formattedAddress : String
  nationalPhoneNumber : String
  websiteUri : String
  addressComponents : List AddressComponent
deriving DecidableEq, Repr

/-- The lead dictionary built by `search_area` (and later enriched by
`scrape_batch`). -/
structure Lead where
  name : String
  address : String
  city : String
  state : String
  zip : String
  phone : String
  website : String
  place_id : Option String
  email : String
  facebook : String
  instagram : String
  linkedin : String
  twitter : String
deriving DecidableEq, Repr

/-! ## `PlacesSearcher.parse_address_components` -/

/-- One iteration of the `for component in address_components` loop:
the `if`/`elif` chain overwrites the corresponding field of the
`(city, state, zip)` accumulator. -/
def applyComponent (acc : String × String × String) (c : AddressComponent) :
    String × String × String :=
  if c.types.contains "locality" then
    (c.longText, acc.2.1, acc.2.2)
  else if c.types.contains "administrative_area_level_1" then
    (acc.1, c.shortText, acc.2.2)
  else if c.types.contains "postal_code" then
    (acc.1, acc.2.1, c.longText)
  else
    acc

/-- `PlacesSearcher.parse_address_components`: extract `(city, state,
zip)` from the address components.  The early return on a falsy input
coincides with folding over the empty list. -/
def parse_address_components (comps : List AddressComponent) :
    String × String × String :=
  comps.foldl applyComponent ("", "", "")

/-! ## `PlacesSearcher.estimate_cost` -/

/-- The dictionary returned by `estimate_cost`. -/
structure CostEstimate where
  estimated_searches : ℤ
  estimated_places : ℤ
  nearby_cost : ℚ
  details_cost : ℚ
  total_cost : ℚ
deriving DecidableEq, Repr

/-- `PlacesSearcher.estimate_cost`.  `radius_miles / grid_spacing` is
Python true division followed by `int(...)` truncation; the float
`0.032` is modelled by the rational `32/1000`. -/
def estimate_cost (radius_miles : ℚ) : CostEstimate :=
  let grid_spacing : ℚ := 10
  let num_points : ℤ := max 1 (pytrunc (radius_miles / grid_spacing)) * 2 + 1
  let num_searches : ℤ := num_points ^ 2
  let estimated_places : ℤ := num_searches * 10
  let search_cost : ℚ := (num_searches : ℚ) * (32 / 1000)
  let total_cost : ℚ := search_cost
  { estimated_searches := num_searches
    estimated_places := estimated_places
    nearby_cost := search_cost
    details_cost := 0
    total_cost := total_cost }

/-! ## `PlacesSearcher.calculate_grid_points`

The haversine distance and the latitude-dependent longitude scale
`1 / (69 * cos(radians(center_lat)))` involve transcendental functions
on floats; they are abstracted as the parameters `hav` and
`lng_per_mile`.  The latitude scale `1 / 69.0` is exact. -/

/-- The loop range `range(-num_points, num_points + 1)` as a list of
integers `-n, ..., n` in ascending order. -/
def loopRange (n : ℕ) : List ℤ :=
  (List.range (2 * n + 1)).map (fun (k : ℕ) => (k : ℤ) - (n : ℤ))

/-- The candidate point generated at lattice offset `(i, j)`. -/
def gridPoint (center_lat center_lng grid_spacing lng_per_mile : ℚ)
    (i j : ℤ) : ℚ × ℚ :=
  (center_lat + i * grid_spacing * (1 / 69),
   center_lng + j * grid_spacing * lng_per_mile)

/-- `PlacesSearcher.calculate_grid_points`, as the nested accumulating
loop of the code: for each `i` then each `j`, append the candidate
point when its `hav`-distance from the center is `≤ radius_miles`. -/
def calculate_grid_points (hav : ℚ → ℚ → ℚ → ℚ → ℚ)
    (center_lat center_lng radius_miles : ℚ)
    (grid_spacing_miles : ℚ := 10) (lng_per_mile : ℚ := 1 / 69) :
    List (ℚ × ℚ) :=
  let num_points : ℤ := max 1 (pytrunc (radius_miles / grid_spacing_miles))
  let n : ℕ := num_points.toNat
  (loopRange n).foldl
    (fun acc i =>
      (loopRange n).foldl
        (fun acc2 j =>
          let p := gridPoint center_lat center_lng grid_spacing_miles
            lng_per_mile i j
          if hav center_lat center_lng p.1 p.2 ≤ radius_miles then
            acc2 ++ [p]
          else
            acc2)
        acc)
    []

/-- Modelled from the spec: the full `(2n+1) × (2n+1)` square lattice
of candidate points, enumerated with the outer index `i` ascending and
the inner index `j` ascending. -/
def latticeCandidates (center_lat center_lng grid_spacing lng_per_mile : ℚ)
    (n : ℕ) : List (ℚ × ℚ) :=
  (loopRange n).flatMap
    (fun i => (loopRange n).map
      (fun j => gridPoint center_lat center_lng grid_spacing lng_per_mile i j))

/-! ## `PlacesSearcher.search_area` -/

/-- The lead dictionary built from a raw place (all enrichment fields
start empty). -/
def leadOf (r : RawPlace) : Lead :=
  let parsed := parse_address_components r.addressComponents
  { name := r.displayName
    address := r.formattedAddress
    city := parsed.1
    state := parsed.2.1
    zip := parsed.2.2
    phone := r.nationalPhoneNumber
    website := r.websiteUri
    place_id := r.id
    email := ""
    facebook := ""
    instagram := ""
    linkedin := ""
    twitter := "" }

/-- The admission test applied to a raw place once its `place_id` is
known to be new: its latitude and longitude must be truthy (present and
nonzero) and its `hav`-distance from the center must be `≤ radius`. -/
def admissible (hav : ℚ → ℚ → ℚ → ℚ → ℚ)
    (center_lat center_lng radius_miles : ℚ) (r : RawPlace) : Bool :=
  !(pyFalsy r.latitude) && !(pyFalsy r.longitude) &&
    hav center_lat center_lng (r.latitude.getD 0) (r.longitude.getD 0)
      ≤ radius_miles

/-- One iteration of the inner `for place in places` loop of
`search_area`, acting on the insertion-ordered `unique_places`
dictionary (an association list keyed by `place_id`). -/
def searchStep (hav : ℚ → ℚ → ℚ → ℚ → ℚ)
    (center_lat center_lng radius_miles : ℚ)
    (m : List (Option String × Lead)) (r : RawPlace) :
    List (Option String × Lead) :=
  if (m.lookup r.id).isSome then
    m
  else if admissible hav center_lat center_lng radius_miles r then
    m ++ [(r.id, leadOf r)]
  else
    m

/-- The body of `search_area` after geocoding: process the stream of
raw places returned across all grid points (in encounter order) and
return the values of `unique_places` in insertion order. -/
def searchAreaLeads (hav : ℚ → ℚ → ℚ → ℚ → ℚ)
    (center_lat center_lng radius_miles : ℚ) (raws : List RawPlace) :
    List Lead :=
  (raws.foldl (searchStep hav center_lat center_lng radius_miles) []).map
    (·.2)

/-- `PlacesSearcher.search_area`, parameterised by the geocoding result
(`none` models the `(None, None)` failure return) and by the
concatenated stream of raw places the grid-point searches return.  The
guard `if not center_lat` aborts on an absent or zero center
latitude. -/
def search_area (hav : ℚ → ℚ → ℚ → ℚ → ℚ)
    (geocoded : Option (ℚ × ℚ)) (radius_miles : ℚ)
    (raws : List RawPlace) : List Lead :=
  match geocoded with
  | none => []
  | some (center_lat, center_lng) =>
    if center_lat = 0 then
      []
    else
      searchAreaLeads hav center_lat center_lng radius_miles raws

/-! ## `scraper.py`: `WebsiteScraper.find_email`

The regex engine is abstracted: a page's text is represented by the
ordered list of its email-pattern matches, and the anchor tags by the
list of their `href` strings.  The substring test `excl in domain` and
the case-insensitive `^mailto:` prefix test are modelled exactly. -/

/-- Whether the list `sub` occurs at the head of `l`. -/
def headMatches : List Char → List Char → Bool
  | [], _ => true
  | _ :: _, [] => false
  | a :: as, b :: bs => a = b && headMatches as bs

/-- Whether the list `sub` occurs contiguously anywhere in `l`
(Python's `sub in l` on strings). -/
def hasSub (sub : List Char) : List Char → Bool
  | [] => sub.isEmpty
  | c :: cs => headMatches sub (c :: cs) || hasSub sub cs

/-- Python `excl in domain` for strings (contiguous substring test on
the character sequences). -/
def strHasSub (s sub : String) : Bool :=
  hasSub sub.data s.data

/-- Python `str.split(sep)` for a one-character separator, on
character lists. -/
def splitAtChar (sep : Char) : List Char → List (List Char)
  | [] => [[]]
  | c :: cs =>
    match splitAtChar sep cs with
    | [] => [[]]
    | g :: gs => if c = sep then [] :: g :: gs else (c :: g) :: gs

/-- The excluded-domain substrings of `find_email`. -/
def excluded_domains : List String :=
  ["example.com", "yourdomain.com", "email.com",
   "domain.com", "sentry.io", "wixpress.com"]

/-- `email.split('@')[1].lower()`: the portion of the address between
the first and second `@`, lower-cased.  Every match of the email
pattern contains exactly one `@`, so index `1` exists on real input
(an `@`-free string is mapped to `""` instead of Python's
`IndexError`). -/
def domainOf (email : String) : String :=
  String.mk (((splitAtChar '@' email.data).getD 1 []).map Char.toLower)

/-- Whether a matched email is discarded: its domain portion contains
one of the excluded substrings. -/
def isExcludedEmail (email : String) : Bool :=
  excluded_domains.any (fun excl => strHasSub (domainOf email) excl)

/-- The case-insensitive `^mailto:` test applied to anchor `href`
attributes (`re.compile(r'^mailto:', re.I)`). -/
def isMailtoHref (href : String) : Bool :=
  headMatches "mailto:".data (href.data.map Char.toLower)

/-- `WebsiteScraper.find_email`.  `textMatches` is the ordered list of
email-pattern matches in the page text; `hrefs` is the ordered list of
anchor `href` attributes; `extractEmail` abstracts `re.search` of the
email pattern in an `href` (`none` when there is no match). -/
def find_email (extractEmail : String → Option String)
    (textMatches : List String) (hrefs : List String) : String :=
  match textMatches.find? (fun e => !isExcludedEmail e) with
  | some e => e
  | none =>
    match ((hrefs.filter isMailtoHref).filterMap extractEmail).head? with
    | some e => e
    | none => ""

/-! ## `WebsiteScraper.scrape_batch`

`scrape_website` and `scrape_contact_page` perform network requests;
they are abstracted as oracles from the website string.  `none` models
the `None` failure sentinel of `scrape_website`, and for
`scrape_contact_page` it also covers a falsy (empty) email, since the
caller guards with `if contact_email:`. -/

/-- The dictionary returned by a successful `scrape_website` call. -/
structure ScrapedData where
  email : String
  facebook : String
  instagram : String
  linkedin : String
  twitter : String
deriving DecidableEq, Repr

/-- Oracles standing for the network-dependent scraping calls. -/
structure ScrapeEnv where
  scrapeWebsite : String → Option ScrapedData
  scrapeContactPage : String → Option String

/-- Observable events of one `scrape_batch` run. -/
inductive BatchEvent where
  | calledScrape (url : String)
  | calledContact (url : String)
  | sleep (seconds : ℚ)
deriving DecidableEq, Repr

/-- One iteration of the `for idx, lead in enumerate(leads, 1)` loop of
`scrape_batch`: returns the (possibly updated) lead together with the
events of the iteration.  A lead with a falsy website is skipped by
`continue`, which also skips the trailing `time.sleep(delay)`. -/
def processLead (env : ScrapeEnv) (delay : ℚ) (lead : Lead) :
    Lead × List BatchEvent :=
  if lead.website = "" then
    (lead, [])
  else
    match env.scrapeWebsite lead.website with
    | none =>
      (lead, [.calledScrape lead.website, .sleep delay])
    | some d =>
      let lead1 := { lead with
        email := d.email
        facebook := d.facebook
        instagram := d.instagram
        linkedin := d.linkedin
        twitter := d.twitter }
      if lead1.email = "" then
        match env.scrapeContactPage lead.website with
        | some contact_email =>
          ({ lead1 with email := contact_email },
           [.calledScrape lead.website, .calledContact lead.website,
            .sleep delay])
        | none =>
          (lead1,
           [.calledScrape lead.website, .calledContact lead.website,
            .sleep delay])
      else
        (lead1, [.calledScrape lead.website, .sleep delay])

/-- `WebsiteScraper.scrape_batch`: process the leads in order (each
iteration is independent of the others) and collect the events. -/
def scrape_batch (env : ScrapeEnv) (delay : ℚ) (leads : List Lead) :
    List Lead × List BatchEvent :=
  ((leads.map (processLead env delay)).map (·.1),
   ((leads.map (processLead env delay)).map (·.2)).flatten)

/-- The number of `sleep` events in a trace. -/
def sleepCount (evs : List BatchEvent) : ℕ :=
  evs.countP (fun e => match e with | .sleep _ => true | _ => false)

/-! ## `sheets_handler.py`: `SheetsHandler.log_search_metadata`

The Sheets API calls are abstracted as an environment of outcomes, one
per call the method can make: each outcome is `Except.ok` or
`Except.error msg` (the exception the call would raise).  An uncaught
exception propagating out of `log_search_metadata` is modelled by the
function returning `Except.error`. -/

/-- Outcomes of the Sheets API calls made during one
`log_search_metadata` invocation. -/
structure SheetsWorld where
  probeA1 : Except String Unit
  addSheet : Except String Unit
  headerUpdate : Except String Unit
  formatCalls : Except String Unit
  appendRow : Except String Unit
deriving Repr

/-- Observable actions of one `log_search_metadata` run. -/
inductive MetaAction where
  | probed
  | createdTab
  | wroteHeader
  | formatted
  | appended
  | loggedError (msg : String)
deriving DecidableEq, Repr

/-- `SheetsHandler.create_new_tab`: the `batchUpdate` call is wrapped
in `try`/`except`, so its error is printed and swallowed. -/
def create_new_tab (w : SheetsWorld) : List MetaAction :=
  match w.addSheet with
  | .ok _ => [.createdTab]
  | .error e => [.loggedError e]

/-- `SheetsHandler.format_headers`: its body is wrapped in
`try`/`except`, so its error is printed and swallowed. -/
def format_headers (w : SheetsWorld) : List MetaAction :=
  match w.formatCalls with
  | .ok _ => [.formatted]
  | .error e => [.loggedError e]

/-- `SheetsHandler.log_search_metadata`.  The probe of `Metadata!A1` is
wrapped in `try`; on failure the handler creates the tab (errors
swallowed inside `create_new_tab`), writes the header row with a bare
`values().update` call (NOT wrapped — its exception propagates), and
bold-formats (errors swallowed inside `format_headers`).  The final
append is wrapped in `try`/`except` and its error is swallowed. -/
def log_search_metadata (w : SheetsWorld) :
    Except String (List MetaAction) :=
  let ensured : Except String (List MetaAction) :=
    match w.probeA1 with
    | .ok _ => .ok [.probed]
    | .error _ =>
      match w.headerUpdate with
      | .error e => .error e
      | .ok _ => .ok (create_new_tab w ++ [.wroteHeader] ++ format_headers w)
  match ensured with
  | .error e => .error e
  | .ok acts =>
    match w.appendRow with
    | .ok _ => .ok (acts ++ [.appended])
    | .error e => .ok (acts ++ [.loggedError e])

/-! ## `main.py`: the `/search` route (`run_search`)

Modelled after the point where `search_area` has returned: the route is
a function of the returned lead list, of the `scrape_websites` flag and
of abstractions of the downstream calls, and yields the JSON response
together with the trace of side effects it performs. -/

/-- Side effects the `/search` route can perform after the search. -/
inductive RouteEffect where
  | scrapeBatchCall
  | createTab (tab_name : String)
  | writeHeaders (tab_name : String)
  | writeData (tab_name : String)
  | logMetadata
deriving DecidableEq, Repr

/-- The JSON response of the `/search` route (the fields relevant to
the claims). -/
inductive RouteResponse where
  | failure (error : String)
  | success (results_count : ℕ) (tab_name : String)
deriving DecidableEq, Repr

/-- The body of `run_search` from the `search_area` call on.  `leads`
is what `search_area` returned; `enrich` abstracts
`scraper.scrape_batch` (which returns the updated list). -/
def run_search (leads : List Lead) (scrape_websites : Bool)
    (enrich : List Lead → List Lead) (tab_name : String) :
    RouteResponse × List RouteEffect :=
  if leads.isEmpty then
    (.failure "No results found", [])
  else
    let finalLeads := if scrape_websites then enrich leads else leads
    ((.success finalLeads.length tab_name),
     (if scrape_websites then [RouteEffect.scrapeBatchCall] else []) ++
       [.createTab tab_name, .writeHeaders tab_name,
        .writeData tab_name, .logMetadata])

/-! ## Theorems -/

/-- For a positive quotient truncation and floor agree, and a
non-positive one is flattened by `max 1`. -/
lemma max_one_pytrunc (q : ℚ) : max 1 (pytrunc q) = max 1 ⌊q⌋ := by
  unfold pytrunc
  split
  · rfl
  · rename_i h
    have hq : q < 0 := not_le.mp h
    have h1 : ⌊q⌋ ≤ 0 := Int.floor_nonpos hq.le
    have h2 : 0 ≤ ⌊-q⌋ := Int.floor_nonneg.mpr (by linarith)
    omega

/-- C3: for every `radius_miles`, `estimate_cost` returns
`estimated_searches = (max 1 ⌊radius/10⌋ * 2 + 1)²`,
`estimated_places = estimated_searches * 10`,
`nearby_cost = estimated_searches * 0.032`, `details_cost = 0` and
`total_cost = nearby_cost`; in particular for radius `25` it returns
`25` searches, `250` places, total cost `0.80` exactly (floats are
modelled as rationals) and `details_cost = 0`. -/
theorem estimate_cost_spec (radius_miles : ℚ) :
    (estimate_cost radius_miles).estimated_searches =
        (max 1 ⌊radius_miles / 10⌋ * 2 + 1) ^ 2 ∧
      (estimate_cost radius_miles).estimated_places =
        (estimate_cost radius_miles).estimated_searches * 10 ∧
      (estimate_cost radius_miles).nearby_cost =
        ((estimate_cost radius_miles).estimated_searches : ℚ) * (32 / 1000) ∧
      (estimate_cost radius_miles).details_cost = 0 ∧
      (estimate_cost radius_miles).total_cost =
        (estimate_cost radius_miles).nearby_cost ∧
      estimate_cost 25 = ⟨25, 250, 4 / 5, 0, 4 / 5⟩ := by
  refine ⟨?_, rfl, rfl, rfl, rfl, ?_⟩
  · simp only [estimate_cost]
    rw [max_one_pytrunc]
  · have hfloor : pytrunc (25 / 10 : ℚ) = 2 := by
      unfold pytrunc
      rw [if_pos (by norm_num)]
      norm_num [Int.floor_eq_iff]
    simp only [estimate_cost, hfloor]
    norm_num

/-- C7: when `search_area` returns an empty lead list, the `/search`
route responds `{success: false, error: "No results found"}` and
performs no enrichment, no tab creation or writes, and no metadata
logging. -/
theorem run_search_no_results (scrape_websites : Bool)
    (enrich : List Lead → List Lead) (tab_name : String) :
    run_search [] scrape_websites enrich tab_name =
      (.failure "No results found", []) := rfl

/-- A world in which the probe of `Metadata!A1` fails and the header
write also fails. -/
def c8World : SheetsWorld :=
  { probeA1 := .error "probe failed"
    addSheet := .ok ()
    headerUpdate := .error "header write failed"
    formatCalls := .ok ()
    appendRow := .ok () }

/-- C8 counterexample: `log_search_metadata` CAN raise to its caller.
When the probe of `Metadata!A1` fails and the unprotected header-row
write then raises, the exception propagates out of
`log_search_metadata`. -/
theorem log_search_metadata_raises_cex :
    log_search_metadata c8World = .error "header write failed" := rfl

/-- C8 amended: `log_search_metadata` raises to its caller exactly when
the probe of `Metadata!A1` fails and the write of the 7-column header
row then fails; every other error (tab creation, bold-formatting, the
final append) is swallowed. -/
theorem log_search_metadata_raises_iff (w : SheetsWorld) :
    (∃ e, log_search_metadata w = .error e) ↔
      (∃ e, w.probeA1 = .error e) ∧ ∃ e, w.headerUpdate = .error e := by
  unfold log_search_metadata
  rcases w with ⟨p, a, h, f, ap⟩
  cases p <;> cases h <;> cases ap <;> simp

/-! ### C4: `parse_address_components` -/

/-- Whether the `if`/`elif` chain routes a component to the city
field. -/
def takesCity (c : AddressComponent) : Bool :=
  c.types.contains "locality"

/-- Whether the `if`/`elif` chain routes a component to the state
field. -/
def takesState (c : AddressComponent) : Bool :=
  !takesCity c && c.types.contains "administrative_area_level_1"

/-- Whether the `if`/`elif` chain routes a component to the zip
field. -/
def takesZip (c : AddressComponent) : Bool :=
  !takesCity c && !(c.types.contains "administrative_area_level_1") &&
    c.types.contains "postal_code"

/-- Two `locality` components with different long texts. -/
def dupLocality : List AddressComponent :=
  [{ types := ["locality"], longText := "Springfield", shortText := "" },
   { types := ["locality"], longText := "Shelbyville", shortText := "" }]

/-- C4 counterexample: duplicates of a type are NOT ignored — with two
`locality` components the later one overwrites the earlier one, so the
first occurrence does not win. -/
theorem parse_address_components_first_wins_cex :
    parse_address_components dupLocality = ("Shelbyville", "", "") ∧
      ¬ parse_address_components dupLocality = ("Springfield", "", "") := by
  decide

/-- C4 amended: `parse_address_components` extracts the city from the
LAST component typed `locality` (long text), the state from the last
component typed `administrative_area_level_1` but not `locality`
(short text), and the zip from the last component typed `postal_code`
but neither `locality` nor `administrative_area_level_1` (long text);
each later matching component overwrites the earlier value, and an
empty input yields three empty strings. -/
theorem parse_address_components_last_wins (comps : List AddressComponent) :
    parse_address_components comps =
      (((comps.filter takesCity).map (·.longText)).getLastD "",
       ((comps.filter takesState).map (·.shortText)).getLastD "",
       ((comps.filter takesZip).map (·.longText)).getLastD "") := by
  induction comps using List.reverseRecOn with
  | nil => rfl
  | append_singleton comps c ih =>
    unfold parse_address_components at *
    rw [List.foldl_append, List.foldl_cons, List.foldl_nil, ih]
    unfold applyComponent
    by_cases h1 : "locality" ∈ c.types <;>
      by_cases h2 : "administrative_area_level_1" ∈ c.types <;>
        by_cases h3 : "postal_code" ∈ c.types <;>
          simp [h1, h2, h3, List.filter_append, takesCity, takesState,
            takesZip]

/-! ### C5 and C10: `scrape_batch` -/

/-- An environment in which every network scrape fails. -/
def failEnv : ScrapeEnv :=
  { scrapeWebsite := fun _ => none
    scrapeContactPage := fun _ => none }

/-- A lead with no website. -/
def noWebsiteLead : Lead :=
  { name := "Acme Vet", address := "1 Main St", city := "", state := ""
    zip := "", phone := "", website := "", place_id := some "pid0"
    email := "", facebook := "", instagram := "", linkedin := ""
    twitter := "" }

/-- A lead with a website. -/
def websiteLead : Lead :=
  { name := "Best Vet", address := "2 Main St", city := "", state := ""
    zip := "", phone := "", website := "bestvet.example", place_id := some "pid1"
    email := "", facebook := "", instagram := "", linkedin := ""
    twitter := "" }

/-- Exactly one `sleep` event is produced per processed lead, and none
for a skipped one. -/
lemma sleepCount_processLead (env : ScrapeEnv) (delay : ℚ) (l : Lead) :
    sleepCount (processLead env delay l).2 =
      if l.website = "" then 0 else 1 := by
  unfold processLead
  by_cases hw : l.website = ""
  · simp [hw, sleepCount]
  · rw [if_neg hw, if_neg hw]
    cases henv : env.scrapeWebsite l.website with
    | none => simp [sleepCount]
    | some d =>
      by_cases he : d.email = ""
      · simp only [he, if_pos]
        cases hc : env.scrapeContactPage l.website <;>
          simp [sleepCount, he]
      · simp [sleepCount, he]

/-- C5 counterexample: the per-lead delay is NOT applied on an
iteration that is skipped because the lead's website is empty — the
`continue` jumps over the `time.sleep(delay)`.  One lead, one
iteration, zero sleeps. -/
theorem scrape_batch_skip_delay_cex :
    [noWebsiteLead].length = 1 ∧
      sleepCount (scrape_batch failEnv 1 [noWebsiteLead]).2 = 0 := by
  constructor
  · rfl
  · rfl

/-- C5 amended: `scrape_batch` sleeps `delay` seconds once after every
lead whose website is non-empty; iterations skipped because the
website is empty are skipped entirely, delay included, so the number
of sleeps equals the number of leads with a non-empty website. -/
theorem scrape_batch_delay_count (env : ScrapeEnv) (delay : ℚ)
    (leads : List Lead) :
    sleepCount (scrape_batch env delay leads).2 =
      leads.countP (fun l => !(l.website = "" : Bool)) := by
  induction leads with
  | nil => rfl
  | cons l ls ih =>
    have hl := sleepCount_processLead env delay l
    unfold scrape_batch sleepCount at ih hl ⊢
    simp only [List.map_cons, List.flatten_cons, List.countP_append,
      List.countP_cons] at ih ⊢
    rw [ih, hl]
    by_cases hw : l.website = ""
    · simp [hw]
    · simp [hw]
      omega

/-- C10: in `scrape_batch`, a lead whose website is non-empty but
whose `scrape_website` call returns the failure sentinel is passed
through unchanged (all enrichment fields keep their prior values), and
`scrape_contact_page` is not invoked for that lead: its iteration
performs exactly the failed scrape and the sleep. -/
theorem scrape_batch_failure_preserves (env : ScrapeEnv) (delay : ℚ)
    (leads : List Lead) (i : ℕ) (hi : i < leads.length)
    (hweb : leads[i].website ≠ "")
    (hfail : env.scrapeWebsite leads[i].website = none) :
    (scrape_batch env delay leads).1[i]? = some leads[i] ∧
      (processLead env delay leads[i]).2 =
        [.calledScrape leads[i].website, .sleep delay] ∧
      BatchEvent.calledContact leads[i].website ∉
        (processLead env delay leads[i]).2 := by
  have hlead : processLead env delay leads[i] =
      (leads[i], [.calledScrape leads[i].website, .sleep delay]) := by
    unfold processLead
    rw [if_neg hweb, hfail]
  refine ⟨?_, ?_, ?_⟩
  · unfold scrape_batch
    rw [List.getElem?_map, List.getElem?_map]
    rw [List.getElem?_eq_getElem hi]
    simp [hlead]
  · rw [hlead]
  · rw [hlead]
    simp

/-- C10 witness: a concrete lead with a website whose scrape fails is
returned unchanged and its contact page is never fetched. -/
theorem scrape_batch_failure_preserves_witness :
    (scrape_batch failEnv 1 [websiteLead]).1[0]? = some websiteLead ∧
      (processLead failEnv 1 websiteLead).2 =
        [.calledScrape websiteLead.website, .sleep 1] ∧
      BatchEvent.calledContact websiteLead.website ∉
        (processLead failEnv 1 websiteLead).2 := by
  have h := scrape_batch_failure_preserves failEnv 1 [websiteLead] 0
    (by decide) (by decide) rfl
  simpa using h

/-! ### C6: `find_email` -/

/-- Scanning for the first element satisfying a predicate is taking
the head of the filtered list. -/
lemma find?_eq_head?_filter {α : Type} (p : α → Bool) (l : List α) :
    l.find? p = (l.filter p).head? := by
  induction l with
  | nil => rfl
  | cons a l ih =>
    cases h : p a with
    | false =>
      rw [List.find?_cons_of_neg _ (by simp [h]),
        List.filter_cons_of_neg (by simp [h]), ih]
    | true =>
      rw [List.find?_cons_of_pos _ h, List.filter_cons_of_pos h,
        List.head?_cons]

/-- C6: `find_email` returns the first text match whose domain portion
(case-insensitively) contains no excluded substring; when no text
match survives the filter, it returns the first email extracted from
an anchor `href` that starts with `mailto:` (case-insensitively); and
when both are empty it returns `""`. -/
theorem find_email_spec (extractEmail : String → Option String)
    (textMatches hrefs : List String) :
    (∀ e, (textMatches.filter (fun x => !isExcludedEmail x)).head? = some e →
      find_email extractEmail textMatches hrefs = e) ∧
      ((textMatches.filter (fun x => !isExcludedEmail x)) = [] →
        ∀ e, ((hrefs.filter isMailtoHref).filterMap extractEmail).head? =
            some e →
          find_email extractEmail textMatches hrefs = e) ∧
      ((textMatches.filter (fun x => !isExcludedEmail x)) = [] →
        (hrefs.filter isMailtoHref).filterMap extractEmail = [] →
          find_email extractEmail textMatches hrefs = "") := by
  unfold find_email
  rw [find?_eq_head?_filter]
  refine ⟨?_, ?_, ?_⟩
  · intro e he
    rw [he]
  · intro hnone e he
    rw [hnone, he]
    rfl
  · intro hnone hmail
    rw [hnone, hmail]
    rfl

/-- C6 witness: on a page whose text matches are an excluded
`example.com` address followed by a real one, `find_email` returns the
real one. -/
theorem find_email_spec_witness :
    (["admin@example.com", "doc@vetcare.org"].filter
        (fun x => !isExcludedEmail x)).head? = some "doc@vetcare.org" ∧
      find_email (fun _ => none) ["admin@example.com", "doc@vetcare.org"]
        ["MAILTO:info@clinic.example"] = "doc@vetcare.org" := by
  have hh : (["admin@example.com", "doc@vetcare.org"].filter
      (fun x => !isExcludedEmail x)).head? = some "doc@vetcare.org" := by
    decide
  exact ⟨hh, (find_email_spec (fun _ => none)
    ["admin@example.com", "doc@vetcare.org"]
    ["MAILTO:info@clinic.example"]).1 "doc@vetcare.org" hh⟩

/-! ### C9: zero coordinates in `search_area` -/

/-- A raw place whose location is present but has latitude `0`. -/
def zeroLatRaw : RawPlace :=
  { id := some "pz", latitude := some 0, longitude := some 5
    displayName := "Zero Vet", formattedAddress := ""
    nationalPhoneNumber := "", websiteUri := "", addressComponents := [] }

/-- C9: `search_area` treats zero coordinates like absent ones — a
geocoded center with latitude `0` aborts the run exactly like a failed
geocode (empty result), and a raw place whose location latitude or
longitude equals `0` is skipped by the loop (the `unique_places` state
is unchanged), so it never becomes a Lead. -/
theorem search_area_zero_guards (hav : ℚ → ℚ → ℚ → ℚ → ℚ) :
    (∀ (center_lng radius_miles : ℚ) (raws : List RawPlace),
      search_area hav (some (0, center_lng)) radius_miles raws =
          search_area hav none radius_miles raws ∧
        search_area hav (some (0, center_lng)) radius_miles raws = []) ∧
      ∀ (center_lat center_lng radius_miles : ℚ)
        (m : List (Option String × Lead)) (r : RawPlace),
        r.latitude = some 0 ∨ r.longitude = some 0 →
          searchStep hav center_lat center_lng radius_miles m r = m := by
  constructor
  · intro clng radius raws
    constructor <;> simp [search_area]
  · intro clat clng radius m r h
    unfold searchStep
    by_cases hm : (m.lookup r.id).isSome
    · rw [if_pos hm]
    · rw [if_neg hm]
      have hadm : admissible hav clat clng radius r = false := by
        unfold admissible pyFalsy
        rcases h with h | h <;> rw [h] <;> simp
      rw [hadm]
      simp

/-- C9 witness: a concrete zero-latitude center aborts the run, and a
concrete place with latitude `0` leaves the state unchanged. -/
theorem search_area_zero_guards_witness :
    (search_area (fun _ _ _ _ => 0) (some (0, 3)) 25 [zeroLatRaw] =
        search_area (fun _ _ _ _ => 0) none 25 [zeroLatRaw] ∧
      search_area (fun _ _ _ _ => 0) (some (0, 3)) 25 [zeroLatRaw] = []) ∧
      searchStep (fun _ _ _ _ => 0) 1 2 25 [] zeroLatRaw = [] := by
  have h := search_area_zero_guards (fun _ _ _ _ => 0)
  exact ⟨h.1 3 25 [zeroLatRaw], h.2 1 2 25 [] zeroLatRaw (Or.inl rfl)⟩

/-! ### C2: `calculate_grid_points` -/

/-- A conditional-append fold is filtering the mapped list. -/
lemma foldl_filter_append {α β : Type} (f : β → α) (P : α → Prop)
    [DecidablePred P] :
    ∀ (l : List β) (acc : List α),
      l.foldl (fun acc2 j => if P (f j) then acc2 ++ [f j] else acc2) acc =
        acc ++ (l.map f).filter (fun x => decide (P x)) := by
  intro l
  induction l with
  | nil => intro acc; simp
  | cons b bs ih =>
    intro acc
    rw [List.foldl_cons, List.map_cons]
    by_cases h : P (f b)
    · rw [if_pos h, ih, List.filter_cons_of_pos (by simp [h])]
      simp
    · rw [if_neg h, ih, List.filter_cons_of_neg (by simp [h])]

/-- An accumulating fold of list-valued blocks is flat-mapping. -/
lemma foldl_append_flatMap {α β : Type} (g : β → List α) :
    ∀ (l : List β) (acc : List α),
      l.foldl (fun acc2 i => acc2 ++ g i) acc = acc ++ l.flatMap g := by
  intro l
  induction l with
  | nil => intro acc; simp
  | cons b bs ih =>
    intro acc
    rw [List.foldl_cons, ih, List.flatMap_cons, List.append_assoc]

/-- The loop range `-n, ..., n` has `2n + 1` entries. -/
lemma loopRange_length (n : ℕ) : (loopRange n).length = 2 * n + 1 := by
  simp [loopRange]

/-- Summing a list of constant values. -/
lemma sum_map_constant {β : Type} (c : ℕ) (f : β → ℕ) :
    ∀ (l : List β), (∀ b ∈ l, f b = c) → (l.map f).sum = l.length * c := by
  intro l
  induction l with
  | nil => intro _; simp
  | cons b bs ih =>
    intro h
    rw [List.map_cons, List.sum_cons, ih (fun x hx => h x (by simp [hx])),
      h b (by simp), List.length_cons]
    ring

/-- C2: for a positive radius and positive spacing,
`calculate_grid_points` is exactly the filter of the full
`(2n+1) × (2n+1)` square lattice, `n = max(1, ⌊radius/spacing⌋)`,
enumerated with the outer offset `i` ascending then the inner offset
`j` ascending, keeping precisely the candidates whose `hav`-distance
from the center is `≤ radius_miles`; the unfiltered lattice has
`(2n+1)²` candidates. -/
theorem calculate_grid_points_spec (hav : ℚ → ℚ → ℚ → ℚ → ℚ)
    (center_lat center_lng radius_miles grid_spacing_miles lng_per_mile : ℚ)
    (hr : 0 < radius_miles) (hs : 0 < grid_spacing_miles) :
    calculate_grid_points hav center_lat center_lng radius_miles
        grid_spacing_miles lng_per_mile =
      (latticeCandidates center_lat center_lng grid_spacing_miles lng_per_mile
          (max 1 ⌊radius_miles / grid_spacing_miles⌋).toNat).filter
        (fun p => decide (hav center_lat center_lng p.1 p.2 ≤ radius_miles)) ∧
      (latticeCandidates center_lat center_lng grid_spacing_miles lng_per_mile
          (max 1 ⌊radius_miles / grid_spacing_miles⌋).toNat).length =
        (2 * (max 1 ⌊radius_miles / grid_spacing_miles⌋).toNat + 1) ^ 2 := by
  have hq : (0 : ℚ) ≤ radius_miles / grid_spacing_miles :=
    le_of_lt (div_pos hr hs)
  have hn : pytrunc (radius_miles / grid_spacing_miles) =
      ⌊radius_miles / grid_spacing_miles⌋ := by
    unfold pytrunc
    rw [if_pos hq]
  set N : ℕ := (max 1 ⌊radius_miles / grid_spacing_miles⌋).toNat with hN
  constructor
  · unfold calculate_grid_points
    rw [hn]
    dsimp only
    have hinner : (fun (acc : List (ℚ × ℚ)) (i : ℤ) =>
        (loopRange N).foldl
          (fun acc2 j =>
            if hav center_lat center_lng
                (gridPoint center_lat center_lng grid_spacing_miles
                  lng_per_mile i j).1
                (gridPoint center_lat center_lng grid_spacing_miles
                  lng_per_mile i j).2 ≤ radius_miles then
              acc2 ++ [gridPoint center_lat center_lng grid_spacing_miles
                lng_per_mile i j]
            else
              acc2)
          acc) =
        fun (acc : List (ℚ × ℚ)) (i : ℤ) =>
          acc ++ ((loopRange N).map
            (gridPoint center_lat center_lng grid_spacing_miles lng_per_mile
              i)).filter
            (fun p =>
              decide (hav center_lat center_lng p.1 p.2 ≤ radius_miles)) := by
      funext acc i
      exact foldl_filter_append
        (gridPoint center_lat center_lng grid_spacing_miles lng_per_mile i)
        (fun p => hav center_lat center_lng p.1 p.2 ≤ radius_miles)
        (loopRange N) acc
    rw [hinner, foldl_append_flatMap, List.nil_append]
    unfold latticeCandidates
    rw [List.filter_flatMap]
  · unfold latticeCandidates
    rw [List.length_flatMap]
    have hlen : ∀ i : ℤ, (List.length ∘ fun i =>
        (loopRange N).map
          (gridPoint center_lat center_lng grid_spacing_miles lng_per_mile i))
          i = 2 * N + 1 := by
      intro i
      simp only [Function.comp_apply, List.length_map]
      exact loopRange_length N
    rw [sum_map_constant (2 * N + 1) _ (loopRange N) (fun i _ => hlen i),
      loopRange_length, pow_two]

/-- C2 witness: positive radius and spacing exist with which the
theorem applies, for instance radius 5 and spacing 10 (a single-cell
grid, `n = 1`). -/
theorem calculate_grid_points_spec_witness :
    (0 : ℚ) < 5 ∧ (0 : ℚ) < 10 ∧
      (calculate_grid_points (fun _ _ _ _ => 1) 0 0 5 10 (1 / 69) =
        (latticeCandidates 0 0 10 (1 / 69) (max 1 ⌊(5 : ℚ) / 10⌋).toNat).filter
          (fun p => decide ((fun _ _ _ _ => (1 : ℚ)) 0 0 p.1 p.2 ≤ 5)) ∧
      (latticeCandidates 0 0 10 (1 / 69)
          (max 1 ⌊(5 : ℚ) / 10⌋).toNat).length =
        (2 * (max 1 ⌊(5 : ℚ) / 10⌋).toNat + 1) ^ 2) := by
  refine ⟨by norm_num, by norm_num, ?_⟩
  exact calculate_grid_points_spec (fun _ _ _ _ => 1) 0 0 5 10 (1 / 69)
    (by norm_num) (by norm_num)

/-! ### C1: deduplication by `place_id` in `search_area` -/

/-- Looking a key up in an appended association list. -/
lemma lookup_append {α β : Type} [BEq α] (l₁ l₂ : List (α × β)) (a : α) :
    (l₁ ++ l₂).lookup a = (l₁.lookup a).or (l₂.lookup a) := by
  induction l₁ with
  | nil => simp
  | cons x xs ih =>
    rcases x with ⟨k, v⟩
    cases hx : a == k <;> simp [List.lookup, hx, ih]

/-- A key is absent from an association list iff its lookup fails. -/
lemma lookup_eq_none_iff {α β : Type} [BEq α] [LawfulBEq α]
    (m : List (α × β)) (a : α) :
    m.lookup a = none ↔ a ∉ m.map (·.1) := by
  induction m with
  | nil => simp
  | cons x xs ih =>
    rcases x with ⟨k, v⟩
    by_cases hk : a = k
    · subst hk
      simp [List.lookup]
    · simp [List.lookup, beq_false_of_ne hk, ih, hk]

/-- In an association list with pairwise distinct keys, lookup finds
every member. -/
lemma lookup_of_mem_nodup {α β : Type} [BEq α] [LawfulBEq α] :
    ∀ (m : List (α × β)) (k : α) (v : β),
      (k, v) ∈ m → (m.map (·.1)).Nodup → m.lookup k = some v := by
  intro m
  induction m with
  | nil => intro k v h _; simp at h
  | cons x xs ih =>
    intro k v hmem hnd
    rcases x with ⟨k', v'⟩
    rcases List.mem_cons.mp hmem with heq | htail
    · rw [Prod.mk.injEq] at heq
      rw [heq.1, heq.2]
      simp [List.lookup]
    · rw [List.map_cons] at hnd
      have hnd' := List.nodup_cons.mp hnd
      have hk : k ≠ k' := by
        intro hkk
        subst hkk
        exact hnd'.1 (List.mem_map.mpr ⟨(k, v), htail, rfl⟩)
      simp only [List.lookup, beq_false_of_ne hk]
      exact ih k v htail hnd'.2

/-- If the first element satisfying `pr` also satisfies `s`, it is the
first element satisfying their conjunction. -/
lemma find?_and_right {α : Type} (pr s : α → Bool) :
    ∀ (l : List α) (a : α), l.find? pr = some a → s a = true →
      l.find? (fun x => pr x && s x) = some a := by
  intro l
  induction l with
  | nil => intro a h _; simp at h
  | cons x xs ih =>
    intro a hfind hs
    cases hx : pr x with
    | true =>
      rw [List.find?_cons_of_pos _ hx] at hfind
      obtain rfl : x = a := Option.some.inj hfind
      exact List.find?_cons_of_pos _ (by simp [hx, hs])
    | false =>
      rw [List.find?_cons_of_neg _ (by simp [hx])] at hfind
      rw [List.find?_cons_of_neg _ (by simp [hx])]
      exact ih a hfind hs

/-- Master lemma for the `search_area` loop: the lead recorded under a
key is the prior entry if any, and otherwise comes from the FIRST raw
place of the stream with that id that passes the admission checks. -/
lemma search_foldl_lookup (hav : ℚ → ℚ → ℚ → ℚ → ℚ)
    (center_lat center_lng radius_miles : ℚ) :
    ∀ (raws : List RawPlace) (m : List (Option String × Lead))
      (p : Option String),
      (raws.foldl (searchStep hav center_lat center_lng radius_miles)
          m).lookup p =
        (m.lookup p).or
          ((raws.find? (fun r => r.id == p &&
              admissible hav center_lat center_lng radius_miles r)).map
            leadOf) := by
  intro raws
  induction raws with
  | nil =>
    intro m p
    cases h : m.lookup p <;> simp [h]
  | cons r rest ih =>
    intro m p
    rw [List.foldl_cons, ih]
    by_cases hid : r.id = p
    · subst hid
      cases hm : m.lookup r.id with
      | some l =>
        have hstep : searchStep hav center_lat center_lng radius_miles m r
            = m := by
          unfold searchStep
          rw [if_pos (by rw [hm]; rfl)]
        rw [hstep, hm, Option.or_some, Option.or_some]
      | none =>
        by_cases hadm :
            admissible hav center_lat center_lng radius_miles r = true
        · have hstep : searchStep hav center_lat center_lng radius_miles m r
              = m ++ [(r.id, leadOf r)] := by
            unfold searchStep
            rw [if_neg (by rw [hm]; simp), if_pos hadm]
          rw [hstep, lookup_append, hm, Option.none_or,
            List.find?_cons_of_pos _ (by simp [hadm])]
          simp [List.lookup]
        · have hstep : searchStep hav center_lat center_lng radius_miles m r
              = m := by
            unfold searchStep
            rw [if_neg (by rw [hm]; simp), if_neg hadm]
          rw [hstep, hm, List.find?_cons_of_neg _ (by simp [hadm])]
    · have hfind : List.find? (fun x => x.id == p &&
          admissible hav center_lat center_lng radius_miles x) (r :: rest) =
          List.find? (fun x => x.id == p &&
            admissible hav center_lat center_lng radius_miles x) rest :=
        List.find?_cons_of_neg _ (by simp [hid])
      unfold searchStep
      by_cases hm : (m.lookup r.id).isSome
      · rw [if_pos hm, hfind]
      · rw [if_neg hm]
        by_cases hadm :
            admissible hav center_lat center_lng radius_miles r = true
        · rw [if_pos hadm, hfind, lookup_append]
          have hsing : List.lookup p [(r.id, leadOf r)] = none := by
            simp [List.lookup, beq_false_of_ne (fun h => hid h.symm)]
          rw [hsing, Option.or_none]
        · rw [if_neg hadm, hfind]

/-- The `search_area` loop keeps each entry's key equal to its lead's
`place_id`, and keeps the keys pairwise distinct. -/
lemma search_foldl_invariant (hav : ℚ → ℚ → ℚ → ℚ → ℚ)
    (center_lat center_lng radius_miles : ℚ) :
    ∀ (raws : List RawPlace) (m : List (Option String × Lead)),
      (∀ kl ∈ m, (kl : Option String × Lead).2.place_id = kl.1) →
      (m.map (·.1)).Nodup →
      (∀ kl ∈ raws.foldl (searchStep hav center_lat center_lng radius_miles)
          m, (kl : Option String × Lead).2.place_id = kl.1) ∧
        ((raws.foldl (searchStep hav center_lat center_lng radius_miles)
            m).map (·.1)).Nodup := by
  intro raws
  induction raws with
  | nil => intro m h1 h2; exact ⟨h1, h2⟩
  | cons r rest ih =>
    intro m h1 h2
    rw [List.foldl_cons]
    unfold searchStep
    by_cases hm : (m.lookup r.id).isSome
    · rw [if_pos hm]
      exact ih m h1 h2
    · rw [if_neg hm]
      by_cases hadm :
          admissible hav center_lat center_lng radius_miles r = true
      · rw [if_pos hadm]
        apply ih
        · intro kl hkl
          rcases List.mem_append.mp hkl with hold | hnew
          · exact h1 kl hold
          · rcases List.mem_singleton.mp hnew with rfl
            rfl
        · have hnotin : r.id ∉ m.map (·.1) := by
            rw [← lookup_eq_none_iff]
            exact Option.not_isSome_iff_eq_none.mp hm
          rw [List.map_append]
          rw [List.nodup_append]
          refine ⟨h2, by simp, ?_⟩
          intro x hx hxs
          simp at hxs
          subst hxs
          exact hnotin hx
      · rw [if_neg hadm]
        exact ih m h1 h2

/-- C1: within one run, `search_area` records at most one Lead per
`place_id` (the output's `place_id`s are pairwise distinct), and when
places sharing a `place_id` are returned at one or more grid points —
rediscoveries of the same place, hence with the same location — the
recorded Lead is built from the first-encountered raw place with that
id; later occurrences never update or overwrite it, whatever their
other fields contain. -/
theorem search_area_unique_per_place_id (hav : ℚ → ℚ → ℚ → ℚ → ℚ)
    (center_lat center_lng radius_miles : ℚ) (raws : List RawPlace)
    (p : Option String) (hc : ¬ center_lat = 0)
    (hloc : ∀ r ∈ raws, ∀ s ∈ raws, r.id = p → s.id = p →
      r.latitude = s.latitude ∧ r.longitude = s.longitude) :
    ((search_area hav (some (center_lat, center_lng)) radius_miles
        raws).map (·.place_id)).Nodup ∧
      ∀ l ∈ search_area hav (some (center_lat, center_lng)) radius_miles
          raws, l.place_id = p →
        ∃ r₀, raws.find? (fun r => r.id == p) = some r₀ ∧ l = leadOf r₀ := by
  have hrun : search_area hav (some (center_lat, center_lng)) radius_miles
      raws = searchAreaLeads hav center_lat center_lng radius_miles raws := by
    simp [search_area, hc]
  rw [hrun]
  have hinv := search_foldl_invariant hav center_lat center_lng radius_miles
    raws [] (by simp) (by simp)
  constructor
  · unfold searchAreaLeads
    rw [List.map_map]
    have hmaps : (raws.foldl
          (searchStep hav center_lat center_lng radius_miles) []).map
        ((fun l => l.place_id) ∘ (·.2)) =
        (raws.foldl
          (searchStep hav center_lat center_lng radius_miles) []).map
          (·.1) :=
      List.map_congr_left (fun kl hkl => hinv.1 kl hkl)
    rw [hmaps]
    exact hinv.2
  · intro l hl hlp
    unfold searchAreaLeads at hl
    obtain ⟨kl, hklF, hkl2⟩ := List.mem_map.mp hl
    have hkey : kl.1 = p := by
      rw [← hinv.1 kl hklF, hkl2, hlp]
    have hklmem : (p, l) ∈ raws.foldl
        (searchStep hav center_lat center_lng radius_miles) [] := by
      rw [← hkey, ← hkl2, Prod.mk.eta]
      exact hklF
    have hlk : (raws.foldl
        (searchStep hav center_lat center_lng radius_miles) []).lookup p =
        some l :=
      lookup_of_mem_nodup _ p l hklmem hinv.2
    rw [search_foldl_lookup hav center_lat center_lng radius_miles raws [] p]
      at hlk
    simp only [List.lookup, Option.none_or] at hlk
    obtain ⟨r', hr'q, hr'l⟩ := Option.map_eq_some'.mp hlk
    have hr'mem : r' ∈ raws := List.mem_of_find?_eq_some hr'q
    have hr'pred := List.find?_some hr'q
    rw [Bool.and_eq_true] at hr'pred
    have hr'id : r'.id = p := by
      have := hr'pred.1
      rwa [beq_iff_eq] at this
    have hr'adm := hr'pred.2
    obtain ⟨r₀, hr₀⟩ : ∃ r₀, raws.find? (fun r => r.id == p) = some r₀ := by
      have : (raws.find? (fun r => r.id == p)).isSome :=
        List.find?_isSome.mpr ⟨r', hr'mem, by simp [hr'id]⟩
      exact Option.isSome_iff_exists.mp this
    have hr₀mem : r₀ ∈ raws := List.mem_of_find?_eq_some hr₀
    have hr₀id : r₀.id = p := by
      have := List.find?_some hr₀
      rwa [beq_iff_eq] at this
    have hsame := hloc r₀ hr₀mem r' hr'mem hr₀id hr'id
    have hadm₀ : admissible hav center_lat center_lng radius_miles r₀
        = true := by
      unfold admissible at hr'adm ⊢
      rw [hsame.1, hsame.2]
      exact hr'adm
    have hconj := find?_and_right (fun r => r.id == p)
      (admissible hav center_lat center_lng radius_miles) raws r₀ hr₀ hadm₀
    rw [hconj] at hr'q
    refine ⟨r₀, hr₀, ?_⟩
    rw [Option.some.inj hr'q]
    exact hr'l.symm

/-- Two raw places sharing a `place_id` and a location but with
different display names. -/
def rawFirst : RawPlace :=
  { id := some "pid", latitude := some 1, longitude := some 1
    displayName := "First Vet", formattedAddress := "1 A St"
    nationalPhoneNumber := "", websiteUri := "", addressComponents := [] }

/-- The later rediscovery of the same place, with richer data. -/
def rawSecond : RawPlace :=
  { id := some "pid", latitude := some 1, longitude := some 1
    displayName := "Second Vet", formattedAddress := "1 A St"
    nationalPhoneNumber := "555-0100", websiteUri := "second.example"
    addressComponents := [] }

/-- C1 witness: with a duplicated `place_id` in the stream the run
keeps one lead, built from the first occurrence. -/
theorem search_area_unique_per_place_id_witness :
    ((search_area (fun _ _ _ _ => 0) (some (1, 2)) 5
        [rawFirst, rawSecond]).map (·.place_id)).Nodup ∧
      ∀ l ∈ search_area (fun _ _ _ _ => 0) (some (1, 2)) 5
          [rawFirst, rawSecond], l.place_id = some "pid" →
        ∃ r₀, [rawFirst, rawSecond].find? (fun r => r.id == some "pid") =
            some r₀ ∧ l = leadOf r₀ := by
  have h := search_area_unique_per_place_id (fun _ _ _ _ => 0) 1 2 5
    [rawFirst, rawSecond] (some "pid") (by norm_num) ?_
  · exact h
  · intro r hr s hs _ _
    simp only [List.mem_cons, List.mem_singleton, List.not_mem_nil,
      or_false] at hr hs
    rcases hr with rfl | rfl <;> rcases hs with rfl | rfl <;> exact ⟨rfl, rfl⟩

end LeadGen
